import Mathlib

/-!
Verification of the typed publish/subscribe layer of the rustecal repository.

The development shallowly embeds the Rust sources:

* raw byte buffers are modelled as `List Nat` (one `Nat` per byte);
* C strings are modelled as Lean `String`s plus an explicit interior NUL check
  (a Rust `CString::new` fails exactly when the input contains a 0 byte);
* nullable raw pointers handed across the FFI boundary are modelled as
  `Option` values, where dereferencing `none` is made explicit in the result
  type of the modelled function;
* the external eCAL transport is an explicit parameter (a function or a state
  record) rather than an ambient effect, so every modelled operation is a pure
  Lean function.

Each definition carries a comment naming the Rust item it embeds.
-/

namespace Rustecal

/-- Model of `rustecal_core::types::DataTypeInfo` (re-exported by
`rustecal-core`; the struct literal shape is visible at every use site, e.g.
`publisher.rs` lines 214-218): `encoding: String`, `type_name: String`,
`descriptor: Vec<u8>`. -/
structure DataTypeInfo where
  encoding : String
  type_name : String
  descriptor : List Nat
deriving Repr, DecidableEq

/-! ## Zero-copy payload writers (`rustecal-pubsub/src/payload_writer.rs`)

The Rust trait `PayloadWriter` has three methods taking `&mut self` and a
`&mut [u8]` buffer.  A trait object is modelled as a structure of pure
functions over an explicit state type `σ`: every method returns the updated
writer state, the updated buffer, and the `bool` result. -/

/-- Model of the trait `PayloadWriter` (`payload_writer.rs` lines 11-24).
`write_modified` defaults to `write_full`, as in the trait's default method. -/
structure PayloadWriter (σ : Type) where
  write_full : σ → List Nat → σ × List Nat × Bool
  write_modified : σ → List Nat → σ × List Nat × Bool := write_full
  get_size : σ → Nat

/-- Model of the C callback `write_full_cb` (`payload_writer.rs` lines 33-47):
it reads the thread-local slot `CURRENT_WRITER`; when a writer is installed it
forwards to `write_full` and maps `true`/`false` to `0`/`-1`; when the slot is
empty it returns `-1` without touching any writer or the buffer.  The slot
holds a raw `*mut dyn PayloadWriter`; here it holds the pointee
(writer vtable and state). -/
def write_full_cb (σ : Type) (slot : Option (PayloadWriter σ × σ)) (buffer : List Nat) :
    Option (PayloadWriter σ × σ) × List Nat × Int :=
  match slot with
  | some (w, st) =>
    let r := w.write_full st buffer
    (some (w, r.1), r.2.1, if r.2.2 then 0 else -1)
  | none => (none, buffer, -1)

/-- Model of the C callback `write_mod_cb` (`payload_writer.rs` lines 50-64):
same shape as `write_full_cb` but forwarding to `write_modified`. -/
def write_mod_cb (σ : Type) (slot : Option (PayloadWriter σ × σ)) (buffer : List Nat) :
    Option (PayloadWriter σ × σ) × List Nat × Int :=
  match slot with
  | some (w, st) =>
    let r := w.write_modified st buffer
    (some (w, r.1), r.2.1, if r.2.2 then 0 else -1)
  | none => (none, buffer, -1)

/-- Model of the C callback `get_size_cb` (`payload_writer.rs` lines 67-76):
returns the installed writer's `get_size()`, or `0` when the slot is empty. -/
def get_size_cb (σ : Type) (slot : Option (PayloadWriter σ × σ)) : Nat :=
  match slot with
  | some (w, st) => w.get_size st
  | none => 0

/-! ## The active-writer slot discipline (`rustecal-pubsub/src/publisher.rs`)

`Publisher::send_payload_writer` (lines 106-141) stores the writer pointer in
the thread-local `CURRENT_WRITER`, calls the FFI entry point
`eCAL_Publisher_SendPayloadWriter` (which synchronously invokes the three C
callbacks above on the calling thread), then unconditionally `take()`s the
slot and returns `result == 0`.

For the slot *discipline* the writer is identified by its pointer, modelled as
an arbitrary type `W` with equality; the transport call is summarised by the
integer it returns.  `SendRecord` records the slot value at the three
observable instants of one call. -/

/-- Observable slot history of one `send_payload_writer` call: the slot value
when the call starts, the slot value seen by the transport's callbacks while
`eCAL_Publisher_SendPayloadWriter` runs, the slot value when the call returns,
and the boolean result. -/
structure SendRecord (W : Type) where
  pre : Option W
  duringTransport : Option W
  post : Option W
  ok : Bool
deriving Repr, DecidableEq

/-- Model of `Publisher::send_payload_writer` (`publisher.rs` lines 106-141)
restricted to its effect on the thread-local slot: install `some w`
(lines 112-115), run the transport call against that slot value (line 132),
then `take()` the slot (lines 135-137) and report `result == 0` (line 140). -/
def send_payload_writer (W : Type) (w : W) (transportRet : Int) (slot : Option W) :
    SendRecord W × Option W :=
  let installed : Option W := some w
  let record : SendRecord W :=
    { pre := slot
      duringTransport := installed
      post := none
      ok := transportRet == 0 }
  (record, none)

/-- A sequence of `send_payload_writer` calls on one thread, each given as the
writer used and the integer the transport returns; yields the per-call slot
records and the final slot state.  The thread-local initialiser is
`RefCell::new(None)` (`payload_writer.rs` line 29), so runs start at `none`. -/
def runSends (W : Type) : List (W × Int) → Option W → List (SendRecord W) × Option W
  | [], slot => ([], slot)
  | (w, ret) :: more, slot =>
    let step := send_payload_writer W w ret slot
    let rest := runSends W more step.2
    (step.1 :: rest.1, rest.2)

/-! ## The benchmark writer (`performance_send/src/binary_payload_writer.rs`) -/

/-- Overwrite the first `n` entries of a list with `v`, leaving the rest
unchanged: model of `buf[..n].fill(v)`. -/
def fillFirst : Nat → List Nat → Nat → List Nat
  | 0, l, _ => l
  | _ + 1, [], _ => []
  | n + 1, _ :: l, v => v :: fillFirst n l v

/-- Model of the struct `BinaryPayload` (`binary_payload_writer.rs` lines
11-16): the declared payload size and a `u32` clock. -/
structure BinaryPayload where
  size : Nat
  clock : Nat
deriving Repr, DecidableEq

/-- Model of `BinaryPayload::write_full` (`binary_payload_writer.rs` lines
38-46): fail when the buffer is shorter than the declared size, otherwise
fill the first `size` bytes with 42 (0x2A). -/
def BinaryPayload.write_full (p : BinaryPayload) (buf : List Nat) :
    BinaryPayload × List Nat × Bool :=
  if buf.length < p.size then (p, buf, false)
  else (p, fillFirst p.size buf 42, true)

/-- Model of `BinaryPayload::write_modified` (`binary_payload_writer.rs` lines
52-64): fail when the buffer is shorter than the declared size, otherwise set
byte `(clock % 1024) % size` to the ASCII digit `48 + clock % 10` and advance
the wrapping `u32` clock.  (With `size = 0` the Rust `%` would panic; the
claims under verification only exercise `size > 0`.) -/
def BinaryPayload.write_modified (p : BinaryPayload) (buf : List Nat) :
    BinaryPayload × List Nat × Bool :=
  if buf.length < p.size then (p, buf, false)
  else
    let idx := (p.clock % 1024) % p.size
    (⟨p.size, (p.clock + 1) % 2 ^ 32⟩, buf.set idx (48 + p.clock % 10), true)

/-- Model of `BinaryPayload::get_size` (`binary_payload_writer.rs` lines
69-71): return the stored size. -/
def BinaryPayload.get_size (p : BinaryPayload) : Nat :=
  p.size

/-- The `impl PayloadWriter for BinaryPayload` (`binary_payload_writer.rs`
lines 33-72), packaged as a writer value over state `BinaryPayload`. -/
def binaryPayloadWriter : PayloadWriter BinaryPayload :=
  { write_full := BinaryPayload.write_full
    write_modified := BinaryPayload.write_modified
    get_size := BinaryPayload.get_size }

/-! ## Untyped publisher construction and queries (`publisher.rs`) -/

/-- A Rust `CString::new` fails exactly when the source string contains a NUL
byte; `containsNul` is that check on the model. -/
def containsNul (s : String) : Bool :=
  s.data.any (fun c => c = Char.ofNat 0)

/-- Model of the struct `Publisher` (`publisher.rs` lines 23-28): the raw
transport handle plus the owned strings and descriptor bytes the handle
references.  Handles are opaque; a `Nat` stands for the non-null pointer. -/
structure CPublisher where
  handle : Nat
  encodingOwned : String
  typeNameOwned : String
  descriptorOwned : List Nat
deriving Repr, DecidableEq

/-- Model of `Publisher::new` (`publisher.rs` lines 41-72).  The external
`eCAL_Publisher_New` call is the parameter `transportNew`, given the topic
name, the data type strings and descriptor; it returns `none` for a null
handle.  The conversion failures happen in source order: topic name,
encoding, type name; only then is the transport called.  On success the
publisher owns the handle together with the encoding/type-name strings and
the descriptor bytes (lines 65-70). -/
def Publisher.new
    (transportNew : String → String → String → List Nat → Option Nat)
    (topic_name : String) (data_type : DataTypeInfo) : Except String CPublisher :=
  if containsNul topic_name then .error ("Invalid topic name")
  else if containsNul data_type.encoding then .error ("Invalid encoding string")
  else if containsNul data_type.type_name then .error ("Invalid type name")
  else
    match transportNew topic_name data_type.encoding data_type.type_name
        data_type.descriptor with
    | none => .error ("Failed to create eCAL_Publisher")
    | some h => .ok ⟨h, data_type.encoding, data_type.type_name, data_type.descriptor⟩

/-- The transport-side state a publisher's metadata queries read, one field
per `eCAL_Publisher_Get*` entry point (`publisher.rs` lines 144-220).
`GetSubscriberCount` returns a plain `usize` and has no null/absent case;
the other three return nullable pointers, modelled as `Option`s.  The data
type information struct itself has nullable `encoding`/`name`/`descriptor`
fields (checked at lines 195-212). -/
structure PubTransportState where
  subscriberCount : Nat
  topicName : Option String
  topicId : Option Nat
  dataTypeInfo : Option (Option String × Option String × Option (List Nat))
deriving Repr, DecidableEq

/-- Model of `Publisher::get_subscriber_count` (`publisher.rs` lines 144-146):
a read of the transport state; the publisher and transport are returned
unchanged because the source takes `&self` and only calls the read-only
getter. -/
def Publisher.get_subscriber_count (t : PubTransportState) (p : CPublisher) :
    PubTransportState × CPublisher × Nat :=
  (t, p, t.subscriberCount)

/-- Model of `Publisher::get_topic_name` (`publisher.rs` lines 153-162):
`None` exactly when the transport returns a null pointer. -/
def Publisher.get_topic_name (t : PubTransportState) (p : CPublisher) :
    PubTransportState × CPublisher × Option String :=
  (t, p, t.topicName)

/-- Model of `Publisher::get_topic_id` (`publisher.rs` lines 169-178):
`None` exactly when the transport returns a null pointer; otherwise a copy of
the pointed-to id. -/
def Publisher.get_topic_id (t : PubTransportState) (p : CPublisher) :
    PubTransportState × CPublisher × Option Nat :=
  (t, p, t.topicId)

/-- Model of `Publisher::get_data_type_information` (`publisher.rs` lines
186-220): `None` when the transport returns a null struct pointer; otherwise
each nullable field falls back to an empty string or empty byte vector (a
null or zero-length descriptor gives `[]`). -/
def Publisher.get_data_type_information (t : PubTransportState) (p : CPublisher) :
    PubTransportState × CPublisher × Option DataTypeInfo :=
  match t.dataTypeInfo with
  | none => (t, p, none)
  | some (enc, nm, desc) =>
    (t, p, some
      { encoding := match enc with | none => "" | some s => s
        type_name := match nm with | none => "" | some s => s
        descriptor :=
          match desc with
          | none => []
          | some d => if d.length = 0 then [] else d })

/-! ## Typed subscriber callback lifecycle (`typed_subscriber.rs`)

`TypedSubscriber<T>` owns one heap-allocated `CallbackWrapper<T>` behind the
raw pointer field `user_data`, and the transport holds a context pointer for
the registered trampoline.  The lifecycle-relevant effects of `set_callback`
(lines 118-137) and `Drop` (lines 167-175) are sequences of four primitive
steps on that state.  Closures are identified by allocation id. -/

/-- Lifecycle state: which context pointer the transport's callback
registration currently carries (`none` after
`eCAL_Subscriber_RemoveReceiveCallback`), which closure allocations are live,
and the current value of the `user_data` field. -/
structure CbState where
  registeredCtx : Option Nat
  live : List Nat
  userData : Nat
deriving Repr, DecidableEq

/-- The primitive effects appearing in `set_callback` and `drop`:
`freeOld` is `let _ = Box::from_raw(self.user_data)` (free the closure the
`user_data` field points to); `allocNew id` is
`self.user_data = Box::into_raw(Box::new(CallbackWrapper::new(callback)))`;
`installNew` is `eCAL_Subscriber_SetReceiveCallback(handle, trampoline,
self.user_data)`; `removeRegistration` is
`eCAL_Subscriber_RemoveReceiveCallback(handle)`. -/
inductive CbStep where
  | freeOld
  | allocNew (id : Nat)
  | installNew
  | removeRegistration
deriving Repr, DecidableEq

/-- Effect of one primitive step on the lifecycle state. -/
def execCbStep : CbStep → CbState → CbState
  | .freeOld, s => { s with live := s.live.erase s.userData }
  | .allocNew id, s => { s with live := id :: s.live, userData := id }
  | .installNew, s => { s with registeredCtx := some s.userData }
  | .removeRegistration, s => { s with registeredCtx := none }

/-- The step sequence of `TypedSubscriber::set_callback`
(`typed_subscriber.rs` lines 118-137), in source order: line 124 frees the
old closure, lines 127-128 allocate the new one and overwrite `user_data`,
lines 130-136 install the new context with the transport. -/
def setCallbackSteps (newId : Nat) : List CbStep :=
  [.freeOld, .allocNew newId, .installNew]

/-- The step sequence of `impl Drop for TypedSubscriber`
(`typed_subscriber.rs` lines 167-175), in source order: line 171 removes the
transport registration, line 172 frees the closure. -/
def dropSteps : List CbStep :=
  [.removeRegistration, .freeOld]

/-- All states a step sequence passes through, initial state included. -/
def cbStates : List CbStep → CbState → List CbState
  | [], s => [s]
  | step :: more, s => s :: cbStates more (execCbStep step s)

/-- A state is dangling when the transport's registered context pointer
refers to a closure allocation that is no longer live: iff the transport
delivered a message at such an instant, the trampoline would dereference
freed memory. -/
def dangling (s : CbState) : Bool :=
  match s.registeredCtx with
  | some id => !(s.live.contains id)
  | none => false

/-- The state of a subscriber in the spec's Registered regime whose current
closure allocation is `u`: the transport registration carries `u`, `u` is the
only live closure, and `user_data` points to it. -/
def registeredState (u : Nat) : CbState :=
  ⟨some u, [u], u⟩

/-! ## The delivery trampoline (`typed_subscriber.rs` lines 180-217)

The C-side arguments are four raw pointers.  Each is modelled as an `Option`
of the pointed-to value; the result type `Except Unit (List (Received α))`
makes both observable outcomes explicit: `.error ()` marks a dereference of a
null argument pointer (undefined behaviour in the source), and `.ok invs`
returns the list of user-callback invocations the delivery produced (the
source has no other effect and no error channel).  Pointers *inside* the
pointed-to structs (`encoding`, `name`, `buffer`, `topic_name`) are modelled
as the values they reference; only `descriptor` keeps its null case because
the source null-checks it (line 196). -/

/-- View of `eCAL_STopicId` as used by the trampoline (only `topic_name` is
read, line 205). -/
structure TopicIdView where
  topic_name : String
deriving Repr, DecidableEq

/-- View of `eCAL_SDataTypeInformation` as read by the trampoline (lines
194-200): `encoding` and `name` strings, and a nullable descriptor byte
range. -/
structure DataTypeInfoView where
  encoding : String
  name : String
  descriptor : Option (List Nat)
deriving Repr, DecidableEq

/-- View of `eCAL_SReceiveCallbackData` (lines 191, 211-212): payload bytes
and the send timestamp and logical clock. -/
structure CallbackDataView where
  buffer : List Nat
  send_timestamp : Int
  send_clock : Int
deriving Repr, DecidableEq

/-- Model of the struct `Received<T>` (`typed_subscriber.rs` lines 32-45). -/
structure Received (α : Type) where
  payload : α
  topic_name : String
  encoding : String
  type_name : String
  timestamp : Int
  clock : Int
deriving Repr, DecidableEq

/-- Model of the trait `SubscriberMessage` (`typed_subscriber.rs` lines
14-29) for a concrete message type `α`: the static metadata and the
deserializer. -/
structure SubscriberMessageImpl (α : Type) where
  datatype : DataTypeInfo
  from_bytes : List Nat → DataTypeInfo → Option α

/-- The `DataTypeInfo` the trampoline builds from transport metadata
(`typed_subscriber.rs` lines 194-201): a null or zero-length descriptor
becomes the empty vector. -/
def viewToDataTypeInfo (i : DataTypeInfoView) : DataTypeInfo :=
  { encoding := i.encoding
    type_name := i.name
    descriptor :=
      match i.descriptor with
      | none => []
      | some d => if d.length = 0 then [] else d }

/-- Model of `trampoline::<T>` (`typed_subscriber.rs` lines 180-217).
Source control flow: return early when `data` or `user_data` is null
(line 187); read the payload bytes from `data` (line 191); dereference
`data_type_info` to build a `DataTypeInfo` (lines 194-201, with no null
check on the pointer); run `T::from_bytes` (line 203); on decode failure fall
through and return with no effect; on success dereference `topic_id` for the
topic name (line 205), build the `Received` value and invoke the user
callback exactly once (line 214). -/
def trampoline (α : Type) (inst : SubscriberMessageImpl α)
    (topic_id : Option TopicIdView) (data_type_info : Option DataTypeInfoView)
    (data : Option CallbackDataView) (user_data : Option Nat) :
    Except Unit (List (Received α)) :=
  match data, user_data with
  | some d, some _ =>
    match data_type_info with
    | none => .error ()
    | some i =>
      let dt := viewToDataTypeInfo i
      match inst.from_bytes d.buffer dt with
      | none => .ok []
      | some decoded =>
        match topic_id with
        | none => .error ()
        | some t =>
          .ok [{ payload := decoded
                 topic_name := t.topic_name
                 encoding := dt.encoding
                 type_name := dt.type_name
                 timestamp := d.send_timestamp
                 clock := d.send_clock }]
  | _, _ => .ok []

/-- The `SubscriberMessage` implementation of `BytesMessage`
(`rustecal-types-bytes/src/lib.rs` lines 31-46): static raw/bytes metadata
and a decoder that always succeeds with the payload bytes themselves. -/
def bytesMessageImpl : SubscriberMessageImpl (List Nat) :=
  { datatype := ⟨"raw", "bytes", []⟩
    from_bytes := fun bytes _ => some bytes }

/-! ## The JSON adapter (`rustecal-types-serde/src/json_message.rs`)

`JsonSupport::encode` is `serde_json::to_vec` and `JsonSupport::decode` is
`serde_json::from_slice` (lines 14-19).  `serde_json` is an external
dependency; it is modelled here at the level of its documented byte format:

* a serde data value is modelled by the inductive `Json` (strings carried as
  raw byte lists, so UTF-8 passes through transparently; numbers restricted
  to integers — the claims under verification involve no floating point);
* `to_vec` is `renderJson`: compact rendering, strings escaped exactly as
  `serde_json` does (`\"`, `\\`, `\b`, `\t`, `\n`, `\f`, `\r`, and `\u00XX`
  with lowercase hex for the remaining control bytes);
* `from_slice` is `parseJson`: parse one value, then accept only trailing
  whitespace.  The parser covers the renderer's entire output grammar; of
  `serde_json` features irrelevant to these claims it omits floats,
  `\uXXXX` escapes beyond one byte, and the recursion depth limit.

A `T: Serialize + Deserialize` message type is modelled by `SerdeImpl`:
its `Serialize` instance maps the value to the serde data model, its
`Deserialize` instance consumes a parsed data-model value. -/

/-- The serde/JSON data model, byte-level: strings and object keys are raw
byte sequences, numbers are integers. -/
inductive Json where
  | null
  | bool (b : Bool)
  | int (n : Int)
  | str (s : List Nat)
  | arr (elems : List Json)
  | obj (members : List (List Nat × Json))

/-- Lowercase hexadecimal digit byte for a value below 16 (the
`serde_json` hex table). -/
def hexDigitByte (n : Nat) : Nat :=
  if n < 10 then 48 + n else 87 + n

/-- How `serde_json` escapes one byte inside a string literal: `"` (34) and
`\` (92) get a backslash; the control bytes 8, 9, 10, 12, 13 get their short
escapes; other bytes below 32 become `\u00XX`; everything else is emitted
verbatim. -/
def escapeByte (b : Nat) : List Nat :=
  if b = 34 then [92, 34]
  else if b = 92 then [92, 92]
  else if b = 8 then [92, 98]
  else if b = 9 then [92, 116]
  else if b = 10 then [92, 110]
  else if b = 12 then [92, 102]
  else if b = 13 then [92, 114]
  else if b < 32 then [92, 117, 48, 48, hexDigitByte (b / 16), hexDigitByte (b % 16)]
  else [b]

/-- Escape every byte of a string body. -/
def escapeBytes (s : List Nat) : List Nat :=
  s.flatMap escapeByte

/-- ASCII decimal digits of `n`, most significant first (`"0"` for zero). -/
def natToBytes (n : Nat) : List Nat :=
  if h : n < 10 then [48 + n]
  else natToBytes (n / 10) ++ [48 + n % 10]
decreasing_by exact Nat.div_lt_self (by omega) (by omega)

/-- Decimal rendering of an integer, with a leading `-` (45) when negative. -/
def renderInt (n : Int) : List Nat :=
  if n < 0 then 45 :: natToBytes n.natAbs else natToBytes n.toNat

mutual

/-- Compact JSON rendering, as `serde_json::to_vec` produces it: no
whitespace, `[`/`]` (91/93) around comma-separated elements, `{`/`}`
(123/125) around comma-separated `"key":value` members. -/
def renderJson : Json → List Nat
  | .null => [110, 117, 108, 108]
  | .bool true => [116, 114, 117, 101]
  | .bool false => [102, 97, 108, 115, 101]
  | .int n => renderInt n
  | .str s => 34 :: (escapeBytes s ++ [34])
  | .arr xs => 91 :: (renderElems xs ++ [93])
  | .obj ms => 123 :: (renderMembers ms ++ [125])

/-- Comma-separated rendering of array elements. -/
def renderElems : List Json → List Nat
  | [] => []
  | [x] => renderJson x
  | x :: y :: more => renderJson x ++ (44 :: renderElems (y :: more))

/-- Comma-separated rendering of object members, each as
`"key":value`. -/
def renderMembers : List (List Nat × Json) → List Nat
  | [] => []
  | [(k, v)] => 34 :: (escapeBytes k ++ (34 :: (58 :: renderJson v)))
  | (k, v) :: m :: more =>
    34 :: (escapeBytes k ++ (34 :: (58 :: (renderJson v ++ (44 :: renderMembers (m :: more))))))

end

/-- JSON whitespace bytes: space, tab, line feed, carriage return. -/
def isWsByte (b : Nat) : Bool :=
  b = 32 || b = 9 || b = 10 || b = 13

/-- Drop leading whitespace bytes. -/
def skipWsB : List Nat → List Nat
  | [] => []
  | b :: r => if isWsByte b then skipWsB r else b :: r

/-- ASCII decimal digit test. -/
def isDigitByte (b : Nat) : Bool :=
  48 ≤ b && b ≤ 57

/-- Consume an expected literal byte sequence, returning the remainder. -/
def takeLit : List Nat → List Nat → Option (List Nat)
  | [], input => some input
  | _ :: _, [] => none
  | b :: bs, c :: cs => if b = c then takeLit bs cs else none

/-- Value of a hexadecimal digit byte (accepting both cases). -/
def hexVal (b : Nat) : Option Nat :=
  if 48 ≤ b ∧ b ≤ 57 then some (b - 48)
  else if 97 ≤ b ∧ b ≤ 102 then some (b - 87)
  else if 65 ≤ b ∧ b ≤ 70 then some (b - 55)
  else none

/-- Byte value of a short escape: the inverse of the non-`\u` cases of
`escapeByte` (plus `\/`, which JSON accepts but the renderer never emits). -/
def unescapeByte (e : Nat) : Option Nat :=
  if e = 34 then some 34
  else if e = 92 then some 92
  else if e = 47 then some 47
  else if e = 98 then some 8
  else if e = 116 then some 9
  else if e = 110 then some 10
  else if e = 102 then some 12
  else if e = 114 then some 13
  else none

/-- Parse a string body after the opening quote, up to and including the
closing quote; yields the unescaped bytes and the remainder.  `\uXXXX`
escapes are accepted for single-byte values (all the renderer emits). -/
def parseStringBody : List Nat → Option (List Nat × List Nat)
  | [] => none
  | b :: r =>
    if b = 34 then some ([], r)
    else if b = 92 then
      match r with
      | [] => none
      | e :: r2 =>
        if e = 117 then
          match r2 with
          | h1 :: h2 :: h3 :: h4 :: r3 =>
            match hexVal h1, hexVal h2, hexVal h3, hexVal h4 with
            | some a, some b1, some c, some d =>
              let v := ((a * 16 + b1) * 16 + c) * 16 + d
              if v < 256 then
                (parseStringBody r3).map (fun p => (v :: p.1, p.2))
              else none
            | _, _, _, _ => none
          | _ => none
        else
          match unescapeByte e with
          | some c => (parseStringBody r2).map (fun p => (c :: p.1, p.2))
          | none => none
    else (parseStringBody r).map (fun p => (b :: p.1, p.2))

/-- Consume a maximal run of decimal digits, folding them onto `acc`. -/
def parseDigitsAcc : List Nat → Nat → Nat × List Nat
  | [], acc => (acc, [])
  | b :: r, acc =>
    if isDigitByte b then parseDigitsAcc r (acc * 10 + (b - 48)) else (acc, b :: r)

/-- True when the input does not start with a decimal digit, so a preceding
number rendering cannot be extended by it.  In JSON the byte after a value
is always a delimiter or the end of input, so this always holds where it is
needed. -/
def noDigitHead : List Nat → Bool
  | [] => true
  | b :: _ => !isDigitByte b

mutual

/-- Parse one JSON value (fuel-structural).  Mirrors the dispatch of a JSON
parser on the first non-whitespace byte: `null`/`true`/`false` literals,
strings, arrays, objects, and integer numbers with optional minus sign. -/
def parseValue : Nat → List Nat → Option (Json × List Nat)
  | 0, _ => none
  | fuel + 1, input =>
    match skipWsB input with
    | [] => none
    | b :: r =>
      if b = 110 then (takeLit [117, 108, 108] r).map (fun rest => (.null, rest))
      else if b = 116 then (takeLit [114, 117, 101] r).map (fun rest => (.bool true, rest))
      else if b = 102 then (takeLit [97, 108, 115, 101] r).map (fun rest => (.bool false, rest))
      else if b = 34 then (parseStringBody r).map (fun p => (.str p.1, p.2))
      else if b = 91 then
        match skipWsB r with
        | [] => none
        | c :: r2 =>
          if c = 93 then some (.arr [], r2)
          else (parseElems fuel (c :: r2)).map (fun p => (.arr p.1, p.2))
      else if b = 123 then
        match skipWsB r with
        | [] => none
        | c :: r2 =>
          if c = 125 then some (.obj [], r2)
          else (parseMembers fuel (c :: r2)).map (fun p => (.obj p.1, p.2))
      else if b = 45 then
        match r with
        | [] => none
        | c :: r2 =>
          if isDigitByte c then
            let p := parseDigitsAcc r2 (c - 48)
            some (.int (-(p.1 : Int)), p.2)
          else none
      else if isDigitByte b then
        let p := parseDigitsAcc r (b - 48)
        some (.int (p.1 : Int), p.2)
      else none

/-- Parse one or more comma-separated array elements and the closing `]`.
The empty array is handled in `parseValue`. -/
def parseElems : Nat → List Nat → Option (List Json × List Nat)
  | 0, _ => none
  | fuel + 1, input =>
    match parseValue fuel input with
    | none => none
    | some (v, rest) =>
      match skipWsB rest with
      | [] => none
      | c :: r2 =>
        if c = 44 then (parseElems fuel r2).map (fun p => (v :: p.1, p.2))
        else if c = 93 then some ([v], r2)
        else none

/-- Parse one or more comma-separated `"key":value` members and the closing
`}`.  The empty object is handled in `parseValue`. -/
def parseMembers : Nat → List Nat → Option (List (List Nat × Json) × List Nat)
  | 0, _ => none
  | fuel + 1, input =>
    match skipWsB input with
    | [] => none
    | c :: r =>
      if c = 34 then
        match parseStringBody r with
        | none => none
        | some (k, r2) =>
          match skipWsB r2 with
          | [] => none
          | c2 :: r3 =>
            if c2 = 58 then
              match parseValue fuel r3 with
              | none => none
              | some (v, r4) =>
                match skipWsB r4 with
                | [] => none
                | c3 :: r5 =>
                  if c3 = 44 then (parseMembers fuel r5).map (fun p => ((k, v) :: p.1, p.2))
                  else if c3 = 125 then some ([(k, v)], r5)
                  else none
            else none
      else none

end

/-- Model of `serde_json::from_slice`'s framing: parse one value with enough
fuel for the whole input, then require that only whitespace remains. -/
def parseJson (input : List Nat) : Option Json :=
  match parseValue (input.length + 1) input with
  | none => none
  | some (j, rest) => if skipWsB rest = [] then some j else none

/-- Model of a `T: Serialize + for<'de> Deserialize<'de>` message type `α`:
the `Serialize` instance maps a value into the serde data model, the
`Deserialize` instance reads a data-model value back. -/
structure SerdeImpl (α : Type) where
  serialize : α → Json
  deserialize : Json → Option α

/-- Model of `JsonSupport::encode` (`json_message.rs` lines 14-16):
`serde_json::to_vec(payload)`, i.e. serialize into the data model and render
to bytes.  The source `.expect` aborts on serializer failure; the modelled
`Serialize` instances are total, so no failure case arises. -/
def JsonSupport.encode (α : Type) (si : SerdeImpl α) (payload : α) : List Nat :=
  renderJson (si.serialize payload)

/-- Model of `JsonSupport::decode` (`json_message.rs` lines 17-19):
`serde_json::from_slice(bytes).ok()`, i.e. parse the bytes and feed the
data-model value to the `Deserialize` instance. -/
def JsonSupport.decode (α : Type) (si : SerdeImpl α) (bytes : List Nat) : Option α :=
  match parseJson bytes with
  | none => none
  | some j => si.deserialize j

/-- Model of the wrapper struct `JsonMessage<T>` produced by
`make_format!(JsonMessage, JsonSupport)`: it carries one payload value
(source field `data: Arc<T>`; the `Arc` indirection has no observable
content here). -/
structure JsonMessage (α : Type) where
  data : α

/-- Model of `JsonMessage<T>::to_bytes` (`json_message.rs` lines 35-37):
encode the payload. -/
def JsonMessage.to_bytes (α : Type) (si : SerdeImpl α) (m : JsonMessage α) : List Nat :=
  JsonSupport.encode α si m.data

/-- Model of `JsonMessage<T>::from_bytes` (`json_message.rs` lines 46-48):
decode the bytes, ignore the data-type argument, wrap on success. -/
def JsonMessage.from_bytes (α : Type) (si : SerdeImpl α) (bytes : List Nat)
    (dt : DataTypeInfo) : Option (JsonMessage α) :=
  match dt with
  | _ => (JsonSupport.decode α si bytes).map (fun p => ⟨p⟩)

/-- The `SubscriberMessage` implementation of `JsonMessage<T>`
(`json_message.rs` lines 39-49) packaged for the trampoline model: metadata
with the `json` encoding tag and the `JsonMessage::from_bytes` decoder. -/
def jsonMessageImpl (α : Type) (si : SerdeImpl α) (typeName : String) :
    SubscriberMessageImpl (JsonMessage α) :=
  { datatype := ⟨"json", typeName, []⟩
    from_bytes := JsonMessage.from_bytes α si }

/-- The identity `Serialize`/`Deserialize` pair on the serde data model
itself (the instances of `serde_json::Value`): serialization is the identity
and deserialization always succeeds. -/
def serdeJsonValue : SerdeImpl Json :=
  { serialize := fun j => j
    deserialize := fun j => some j }

/-- Byte representation of an ASCII string, for writing concrete JSON keys. -/
def strBytes (s : String) : List Nat :=
  s.data.map Char.toNat

/-- A concrete two-field message type, standing for a user struct
`{ message: String, count: u64 }` with derived serde instances. -/
structure DemoMsg where
  message : List Nat
  count : Nat
deriving Repr, DecidableEq

/-- The derived serde instances of `DemoMsg`: a struct serializes to an
object with one member per field in declaration order, and deserializes from
exactly that shape. -/
def serdeDemoMsg : SerdeImpl DemoMsg :=
  { serialize := fun m =>
      .obj [(strBytes "message", .str m.message), (strBytes "count", .int m.count)]
    deserialize := fun j =>
      match j with
      | .obj [(k1, .str s), (k2, .int (Int.ofNat n))] =>
        if k1 = strBytes "message" ∧ k2 = strBytes "count" then some ⟨s, n⟩ else none
      | _ => none }

/-- Boolean failure test for the `Result<Publisher, String>` model. -/
def isErr (x : Except String CPublisher) : Bool :=
  match x with
  | .error _ => true
  | .ok _ => false

/-!
# Theorems

Helper lemmas come first, then one theorem per claim (with witnesses and
counterexamples where required).
-/

/-! ## Helper lemmas: active-writer slot -/

/-- Runs of `send_payload_writer` starting from the empty slot leave the
slot empty. -/
theorem runSends_final_none (W : Type) (calls : List (W × Int)) :
    (runSends W calls none).2 = none := by
  induction calls with
  | nil => rfl
  | cons c more ih =>
    obtain ⟨w, r⟩ := c
    simpa [runSends, send_payload_writer] using ih

/-- In a run from the empty slot, every call sees the slot empty on entry
and leaves it empty on return. -/
theorem runSends_records_empty (W : Type) (calls : List (W × Int)) :
    ∀ sr ∈ (runSends W calls none).1, sr.pre = none ∧ sr.post = none := by
  induction calls with
  | nil => intro sr h; simp [runSends] at h
  | cons c more ih =>
    obtain ⟨w, r⟩ := c
    intro sr h
    simp only [runSends, send_payload_writer] at h
    rw [List.mem_cons] at h
    rcases h with h | h
    · subst h; exact ⟨rfl, rfl⟩
    · exact ih sr h

/-! ## Claim theorems C1-C3, C5-C10 -/

/-- C1: on any thread the Active Writer Slot (`CURRENT_WRITER`) is empty
before and after every `Publisher::send_payload_writer` call, for every
writer, timestamp policy and transport outcome (the clear is unconditional,
`publisher.rs` lines 135-137); consequently, in two sequential sends with
different writers, the transport callbacks of the second send observe the
second writer and never the first. -/
theorem send_payload_writer_clears_slot (W : Type) (calls : List (W × Int)) :
    (runSends W calls none).2 = none ∧
    (∀ sr ∈ (runSends W calls none).1, sr.pre = none ∧ sr.post = none) ∧
    (∀ (w1 w2 : W) (r1 r2 : Int), w1 ≠ w2 →
      ((runSends W [(w1, r1), (w2, r2)] none).1.map (fun sr => sr.duringTransport)) =
        [some w1, some w2] ∧ (some w2 : Option W) ≠ some w1) := by
  refine ⟨runSends_final_none W calls, runSends_records_empty W calls, ?_⟩
  intro w1 w2 r1 r2 hne
  constructor
  · simp [runSends, send_payload_writer]
  · simpa using fun h => hne h.symm

/-- Witness for C1 at a concrete two-send run. -/
theorem send_payload_writer_clears_slot_witness :
    (runSends Nat [(0, 0), (1, -1)] none).2 = none ∧
    ((runSends Nat [(0, 0), (1, -1)] none).1.map (fun sr => sr.duringTransport)) =
      [some 0, some 1] := by
  refine ⟨(send_payload_writer_clears_slot Nat [(0, 0), (1, -1)]).1, ?_⟩
  exact ((send_payload_writer_clears_slot Nat []).2.2 0 1 0 (-1) (by decide)).1

/-- C2 (code bug): `TypedSubscriber::set_callback` frees the previous boxed
closure *before* the new closure's context is installed with the transport
(`typed_subscriber.rs` line 124 precedes lines 130-136), so from a Registered
state the very first step produces a state in which the transport's
registered context points at a freed closure — contradicting the claim that
the old closure is destroyed only after the new one is installed. -/
theorem set_callback_frees_while_registered :
    setCallbackSteps 1 = [.freeOld, .allocNew 1, .installNew] ∧
    dangling (execCbStep .freeOld (registeredState 0)) = true ∧
    (cbStates (setCallbackSteps 1) (registeredState 0)).any dangling = true := by
  refine ⟨rfl, by decide, by decide⟩

/-- C3: `impl Drop for TypedSubscriber` removes the transport callback
registration strictly before freeing the owned closure
(`typed_subscriber.rs` line 171 before line 172), so no state during
teardown has the registration pointing at a freed closure. -/
theorem drop_removes_registration_before_free (u : Nat) :
    dropSteps = [.removeRegistration, .freeOld] ∧
    (∀ s ∈ cbStates dropSteps (registeredState u), dangling s = false) := by
  refine ⟨rfl, ?_⟩
  intro s hs
  simp only [dropSteps, cbStates, execCbStep, registeredState, List.mem_cons,
    List.not_mem_nil, or_false] at hs
  rcases hs with h | h | h <;> subst h <;> simp [dangling]

/-- Witness for C3 at a concrete closure id. -/
theorem drop_removes_registration_before_free_witness :
    dropSteps = [.removeRegistration, .freeOld] ∧
    dangling (execCbStep .freeOld (execCbStep .removeRegistration (registeredState 5))) = false := by
  refine ⟨(drop_removes_registration_before_free 5).1, ?_⟩
  exact (drop_removes_registration_before_free 5).2
    (execCbStep .freeOld (execCbStep .removeRegistration (registeredState 5))) (by decide)

/-- C5: whenever the adapter's decode (`T::from_bytes`) returns `None`, the
trampoline returns normally with no user-callback invocation and no error
(`typed_subscriber.rs` line 203: the failed `if let` falls through to the
end of the function). -/
theorem trampoline_drops_decode_failure (α : Type) (inst : SubscriberMessageImpl α)
    (t : Option TopicIdView) (i : DataTypeInfoView) (d : CallbackDataView) (u : Nat)
    (hdec : inst.from_bytes d.buffer (viewToDataTypeInfo i) = none) :
    trampoline α inst t (some i) (some d) (some u) = .ok [] := by
  simp [trampoline, hdec]

/-- Witness for C5: three junk bytes handed to the JSON adapter decode to
`None` and the delivery is dropped silently. -/
theorem trampoline_drops_decode_failure_witness :
    trampoline (JsonMessage Json) (jsonMessageImpl Json serdeJsonValue "Value")
      (some ⟨"t"⟩) (some ⟨"json", "Value", none⟩) (some ⟨[97, 98, 99], 0, 0⟩)
      (some 0) = .ok [] :=
  trampoline_drops_decode_failure (JsonMessage Json)
    (jsonMessageImpl Json serdeJsonValue "Value") (some ⟨"t"⟩)
    ⟨"json", "Value", none⟩ ⟨[97, 98, 99], 0, 0⟩ 0 (by rfl)

/-- C6 counterexample: the claim that the trampoline never dereferences a
null pointer among the transport-supplied arguments is false — with a null
`data_type_info` but non-null payload and context the source dereferences
the null pointer at `typed_subscriber.rs` line 194 (here: the modelled
execution reaches the null-dereference marker). -/
theorem trampoline_null_dti_deref :
    trampoline (List Nat) bytesMessageImpl (some ⟨"t"⟩) none
      (some ⟨[1, 2, 3], 0, 0⟩) (some 0) = .error () := rfl

/-- C6 as amended: the trampoline validates that the payload pointer and the
context pointer are non-null and silently drops the delivery when either is
null (`typed_subscriber.rs` line 187); those are the only two null checks —
when all four argument pointers are non-null no null argument is
dereferenced, but a null `data_type_info` (or a null `topic_id` on a
successful decode) would be dereferenced. -/
theorem trampoline_null_checks_payload_and_context (α : Type)
    (inst : SubscriberMessageImpl α) :
    (∀ t i d u, d = none ∨ u = none → trampoline α inst t i d u = .ok []) ∧
    (∀ tv iv dv uv,
      trampoline α inst (some tv) (some iv) (some dv) (some uv) ≠ .error ()) := by
  constructor
  · intro t i d u h
    rcases h with h | h
    · subst h; cases u <;> rfl
    · subst h; cases d <;> rfl
  · intro tv iv dv uv
    cases hdec : inst.from_bytes dv.buffer (viewToDataTypeInfo iv) <;>
      simp [trampoline, hdec]

/-- Witness for C6 (amended) at concrete null and non-null deliveries. -/
theorem trampoline_null_checks_payload_and_context_witness :
    trampoline (List Nat) bytesMessageImpl none none none (some 0) = .ok [] ∧
    trampoline (List Nat) bytesMessageImpl (some ⟨"t"⟩) (some ⟨"raw", "bytes", none⟩)
      (some ⟨[1], 0, 0⟩) (some 0) ≠ .error () :=
  ⟨(trampoline_null_checks_payload_and_context (List Nat) bytesMessageImpl).1
      none none none (some 0) (Or.inl rfl),
   (trampoline_null_checks_payload_and_context (List Nat) bytesMessageImpl).2
      ⟨"t"⟩ ⟨"raw", "bytes", none⟩ ⟨[1], 0, 0⟩ 0⟩

/-- C10: when the thread-local slot is empty, the three C callbacks fail
safely without touching any writer: the write callbacks return `-1` leaving
the buffer unchanged, and the size callback returns `0`
(`payload_writer.rs` lines 43-44, 60-61, 72-73). -/
theorem callbacks_fail_safe_on_empty_slot (σ : Type) (buf : List Nat) :
    write_full_cb σ none buf = (none, buf, -1) ∧
    write_mod_cb σ none buf = (none, buf, -1) ∧
    get_size_cb σ none = 0 :=
  ⟨rfl, rfl, rfl⟩

/-! ## Helper lemmas: prefix fill -/

/-- Filling a prefix preserves the buffer length. -/
theorem fillFirst_length (n v : Nat) (l : List Nat) :
    (fillFirst n l v).length = l.length := by
  induction l generalizing n with
  | nil => cases n <;> simp [fillFirst]
  | cons a l ih =>
    cases n with
    | zero => simp [fillFirst]
    | succ m => simp [fillFirst, ih]

/-- Inside the filled range, the buffer holds the fill byte. -/
theorem fillFirst_getElem_lt (n v i : Nat) (l : List Nat) (hi : i < n)
    (hl : i < l.length) : (fillFirst n l v)[i]? = some v := by
  induction l generalizing n i with
  | nil => simp at hl
  | cons a l ih =>
    cases n with
    | zero => omega
    | succ m =>
      cases i with
      | zero => simp [fillFirst]
      | succ j =>
        simp only [fillFirst, List.getElem?_cons_succ]
        exact ih m j (by omega) (by simpa using hl)

/-- Beyond the filled range, the buffer is unchanged. -/
theorem fillFirst_getElem_ge (n v i : Nat) (l : List Nat) (hi : n ≤ i) :
    (fillFirst n l v)[i]? = l[i]? := by
  induction l generalizing n i with
  | nil => cases n <;> simp [fillFirst]
  | cons a l ih =>
    cases n with
    | zero => simp [fillFirst]
    | succ m =>
      cases i with
      | zero => omega
      | succ j =>
        simp only [fillFirst, List.getElem?_cons_succ]
        exact ih m j (by omega)

/-- C9: for a `BinaryPayload` of declared size `s`, `get_size` always
returns `s`; `write_full` on a buffer of length at least `s` returns `true`
and sets each of the first `s` bytes to 42 (0x2A) leaving length and the
remaining bytes unchanged; `write_full` on a shorter buffer returns `false`
and leaves the buffer untouched. -/
theorem binary_payload_write_full_spec (s c : Nat) (buf : List Nat) :
    binaryPayloadWriter.get_size ⟨s, c⟩ = s ∧
    (s ≤ buf.length →
      (binaryPayloadWriter.write_full ⟨s, c⟩ buf).2.2 = true ∧
      (binaryPayloadWriter.write_full ⟨s, c⟩ buf).2.1.length = buf.length ∧
      (∀ i, i < s → (binaryPayloadWriter.write_full ⟨s, c⟩ buf).2.1[i]? = some 42) ∧
      (∀ i, s ≤ i → (binaryPayloadWriter.write_full ⟨s, c⟩ buf).2.1[i]? = buf[i]?)) ∧
    (buf.length < s →
      binaryPayloadWriter.write_full ⟨s, c⟩ buf = (⟨s, c⟩, buf, false)) := by
  refine ⟨rfl, ?_, ?_⟩
  · intro hlen
    have hnot : ¬buf.length < s := by omega
    refine ⟨?_, ?_, ?_, ?_⟩
    · simp [binaryPayloadWriter, BinaryPayload.write_full, hnot]
    · simp [binaryPayloadWriter, BinaryPayload.write_full, hnot, fillFirst_length]
    · intro i hi
      simp only [binaryPayloadWriter, BinaryPayload.write_full, hnot, if_false]
      exact fillFirst_getElem_lt s 42 i buf hi (by omega)
    · intro i hi
      simp only [binaryPayloadWriter, BinaryPayload.write_full, hnot, if_false]
      exact fillFirst_getElem_ge s 42 i buf hi
  · intro hlen
    simp [binaryPayloadWriter, BinaryPayload.write_full, hlen]

/-- Witness for C9 at size 2 over a 3-byte and a 1-byte buffer. -/
theorem binary_payload_write_full_spec_witness :
    binaryPayloadWriter.get_size ⟨2, 0⟩ = 2 ∧
    (binaryPayloadWriter.write_full ⟨2, 0⟩ [7, 7, 7]).2.1[0]? = some 42 ∧
    (binaryPayloadWriter.write_full ⟨2, 0⟩ [7, 7, 7]).2.1[2]? = some 7 ∧
    binaryPayloadWriter.write_full ⟨2, 0⟩ [7] = (⟨2, 0⟩, [7], false) := by
  refine ⟨(binary_payload_write_full_spec 2 0 [7, 7, 7]).1, ?_, ?_, ?_⟩
  · exact ((binary_payload_write_full_spec 2 0 [7, 7, 7]).2.1 (by decide)).2.2.1 0
      (by decide)
  · exact (((binary_payload_write_full_spec 2 0 [7, 7, 7]).2.1 (by decide)).2.2.2 2
      (by decide)).trans (by decide)
  · exact (binary_payload_write_full_spec 2 0 [7]).2.2 (by decide)

/-- C7: `Publisher::new` fails exactly when the topic name, the encoding
string or the type-name string contains an interior NUL byte (the
`CString::new` conversions, `publisher.rs` lines 42-44) or the transport
returns a null handle (lines 59-63); otherwise it returns a publisher owning
the handle and the strings the handle references (lines 65-70). -/
theorem publisher_new_error_conditions
    (f : String → String → String → List Nat → Option Nat)
    (tn : String) (dt : DataTypeInfo) :
    (isErr (Publisher.new f tn dt) = true ↔
      containsNul tn = true ∨ containsNul dt.encoding = true ∨
      containsNul dt.type_name = true ∨
      f tn dt.encoding dt.type_name dt.descriptor = none) ∧
    (∀ h, containsNul tn = false → containsNul dt.encoding = false →
      containsNul dt.type_name = false →
      f tn dt.encoding dt.type_name dt.descriptor = some h →
      Publisher.new f tn dt = .ok ⟨h, dt.encoding, dt.type_name, dt.descriptor⟩) := by
  constructor
  · by_cases h1 : containsNul tn = true
    · simp [Publisher.new, isErr, h1]
    · by_cases h2 : containsNul dt.encoding = true
      · simp [Publisher.new, isErr, h1, h2]
      · by_cases h3 : containsNul dt.type_name = true
        · simp [Publisher.new, isErr, h1, h2, h3]
        · cases hf : f tn dt.encoding dt.type_name dt.descriptor <;>
            simp [Publisher.new, isErr, h1, h2, h3, hf]
  · intro h h1 h2 h3 hf
    simp [Publisher.new, h1, h2, h3, hf]

/-- Witness for C7: a transport that accepts yields `Ok` with the owned
strings; adding a NUL byte to the topic makes it fail. -/
theorem publisher_new_error_conditions_witness :
    Publisher.new (fun _ _ _ _ => some 7) "topic" ⟨"json", "Demo", [1]⟩ =
      .ok ⟨7, "json", "Demo", [1]⟩ ∧
    isErr (Publisher.new (fun _ _ _ _ => some 7)
      (String.mk [Char.ofNat 0]) ⟨"json", "Demo", [1]⟩) = true := by
  constructor
  · exact (publisher_new_error_conditions (fun _ _ _ _ => some 7) "topic"
      ⟨"json", "Demo", [1]⟩).2 7 (by decide) (by decide) (by decide) rfl
  · exact (publisher_new_error_conditions (fun _ _ _ _ => some 7)
      (String.mk [Char.ofNat 0]) ⟨"json", "Demo", [1]⟩).1.mpr
      (Or.inl (by decide))

/-- C8: every publisher metadata query is a read that leaves the publisher
and transport state unchanged; `get_topic_name`, `get_topic_id` and
`get_data_type_information` return `none` exactly when the transport cannot
supply the value (null pointer), and `get_subscriber_count` returns the
count the transport reports (its C entry point is total and has no absent
case). -/
theorem publisher_queries_pure_and_absent (t : PubTransportState) (p : CPublisher) :
    Publisher.get_subscriber_count t p = (t, p, t.subscriberCount) ∧
    Publisher.get_topic_name t p = (t, p, t.topicName) ∧
    Publisher.get_topic_id t p = (t, p, t.topicId) ∧
    (Publisher.get_data_type_information t p).1 = t ∧
    (Publisher.get_data_type_information t p).2.1 = p ∧
    ((Publisher.get_data_type_information t p).2.2 = none ↔ t.dataTypeInfo = none) := by
  refine ⟨rfl, rfl, rfl, ?_, ?_, ?_⟩ <;>
    rcases t with ⟨cnt, tnm, tid, dti⟩ <;>
    cases dti <;> simp [Publisher.get_data_type_information]

/-! ## Helper lemmas: JSON lexing -/

/-- Whitespace skipping is the identity on input with a non-whitespace
head. -/
theorem skipWsB_not_ws (b : Nat) (l : List Nat) (h : isWsByte b = false) :
    skipWsB (b :: l) = b :: l := by
  simp [skipWsB, h]

/-- Consuming a literal that the input starts with succeeds with the
remainder. -/
theorem takeLit_append (lit rest : List Nat) :
    takeLit lit (lit ++ rest) = some rest := by
  induction lit with
  | nil => rfl
  | cons b bs ih => simp [takeLit, ih]

/-- Decimal renderings are nonempty and start with a digit byte. -/
theorem natToBytes_head (n : Nat) :
    ∃ b bs, natToBytes n = b :: bs ∧ 48 ≤ b ∧ b ≤ 57 := by
  induction n using Nat.strong_induction_on with
  | _ n ih =>
    rw [natToBytes]
    split
    · exact ⟨48 + n, [], rfl, by omega, by omega⟩
    · rename_i h
      obtain ⟨b, bs, hb, h1, h2⟩ := ih (n / 10) (Nat.div_lt_self (by omega) (by omega))
      exact ⟨b, bs ++ [48 + n % 10], by rw [hb]; rfl, h1, h2⟩

/-- Folding the decimal digits of `n` after an accumulator multiplies the
accumulator by the rendered magnitude and adds `n`. -/
theorem parseDigitsAcc_append (n : Nat) : ∀ acc rest,
    parseDigitsAcc (natToBytes n ++ rest) acc
      = parseDigitsAcc rest (acc * 10 ^ (natToBytes n).length + n) := by
  induction n using Nat.strong_induction_on with
  | _ n ih =>
    intro acc rest
    rw [natToBytes]
    split
    · rename_i h
      have hd : isDigitByte (48 + n) = true := by
        simp only [isDigitByte, Bool.and_eq_true, decide_eq_true_eq]
        omega
      simp only [List.cons_append, List.nil_append, parseDigitsAcc, hd, if_true,
        List.length_cons, List.length_nil]
      congr 1
      omega
    · rename_i h
      have hlt : n / 10 < n := Nat.div_lt_self (by omega) (by omega)
      rw [List.append_assoc, ih (n / 10) hlt]
      have hd : isDigitByte (48 + n % 10) = true := by
        simp only [isDigitByte, Bool.and_eq_true, decide_eq_true_eq]
        omega
      simp only [List.cons_append, List.nil_append, parseDigitsAcc, hd, if_true,
        List.length_append, List.length_cons, List.length_nil]
      congr 1
      have hsplit : (acc * 10 ^ (natToBytes (n / 10)).length + n / 10) * 10
          = acc * 10 ^ ((natToBytes (n / 10)).length + 1) + (n / 10) * 10 := by
        rw [pow_succ]
        ring
      have hmod : n / 10 * 10 + (48 + n % 10 - 48) = n := by omega
      rw [hsplit, Nat.add_assoc, hmod]

/-- A maximal digit run stops at a non-digit head. -/
theorem parseDigitsAcc_stop (m : Nat) (rest : List Nat)
    (h : noDigitHead rest = true) : parseDigitsAcc rest m = (m, rest) := by
  cases rest with
  | nil => rfl
  | cons b r =>
    simp only [noDigitHead, Bool.not_eq_true'] at h
    simp [parseDigitsAcc, h]

/-- Folding the decimal digits of `n` from a zero accumulator recovers `n`
and leaves a digit-free remainder alone. -/
theorem parseDigitsAcc_roundtrip (n : Nat) (rest : List Nat)
    (h : noDigitHead rest = true) :
    parseDigitsAcc (natToBytes n ++ rest) 0 = (n, rest) := by
  rw [parseDigitsAcc_append n 0 rest, Nat.zero_mul, Nat.zero_add,
    parseDigitsAcc_stop n rest h]

/-! ## Helper lemmas: string escaping -/

/-- Reading back a rendered lowercase hex digit recovers its value. -/
theorem hexVal_hexDigitByte (d : Nat) (h : d < 16) :
    hexVal (hexDigitByte d) = some d := by
  unfold hexVal hexDigitByte
  split_ifs <;> first | (exfalso; omega) | (congr 1; omega)

/-- Unescaping one escaped byte at the front of a string body prepends that
byte to whatever the remaining body parses to. -/
theorem parseStringBody_escByte (b : Nat) (tail : List Nat) :
    parseStringBody (escapeByte b ++ tail)
      = (parseStringBody tail).map (fun p => (b :: p.1, p.2)) := by
  unfold escapeByte
  split_ifs with h1 h2 h3 h4 h5 h6 h7 h8
  · subst h1; rw [parseStringBody.eq_def]; simp [unescapeByte]
  · subst h2; rw [parseStringBody.eq_def]; simp [unescapeByte]
  · subst h3; rw [parseStringBody.eq_def]; simp [unescapeByte]
  · subst h4; rw [parseStringBody.eq_def]; simp [unescapeByte]
  · subst h5; rw [parseStringBody.eq_def]; simp [unescapeByte]
  · subst h6; rw [parseStringBody.eq_def]; simp [unescapeByte]
  · subst h7; rw [parseStringBody.eq_def]; simp [unescapeByte]
  · have hd1 : hexVal (hexDigitByte (b / 16)) = some (b / 16) :=
      hexVal_hexDigitByte _ (by omega)
    have hd2 : hexVal (hexDigitByte (b % 16)) = some (b % 16) :=
      hexVal_hexDigitByte _ (by omega)
    have hv : b / 16 * 16 + b % 16 = b := by omega
    have hlt : b / 16 * 16 + b % 16 < 256 := by omega
    have h48 : hexVal 48 = some 0 := by decide
    rw [parseStringBody.eq_def]
    simp only [List.cons_append, List.nil_append]
    simp [h48, hd1, hd2, hlt, hv]
    intro h256
    exact absurd h256 (by omega)
  · have hb34 : b ≠ 34 := h1
    have hb92 : b ≠ 92 := h2
    rw [parseStringBody.eq_def]
    simp [hb34, hb92]

/-- Parsing an escaped string body followed by the closing quote recovers
the original bytes and the remainder. -/
theorem parseStringBody_escape (s : List Nat) (rest : List Nat) :
    parseStringBody (escapeBytes s ++ (34 :: rest)) = some (s, rest) := by
  induction s with
  | nil =>
    show parseStringBody (34 :: rest) = some ([], rest)
    rw [parseStringBody.eq_def]
    simp
  | cons b s ih =>
    have hstep : escapeBytes (b :: s) ++ (34 :: rest)
        = escapeByte b ++ (escapeBytes s ++ (34 :: rest)) := by
      simp [escapeBytes]
    rw [hstep, parseStringBody_escByte, ih]
    rfl

/-! ## Helper lemmas: heads of rendered values and the round trip -/

/-- Every rendered JSON value starts with a byte that is not whitespace and
not a closing bracket, so dispatch in `parseValue` is unambiguous. -/
theorem renderJson_head (j : Json) :
    ∃ b bs, renderJson j = b :: bs ∧ isWsByte b = false ∧ b ≠ 93 ∧ b ≠ 125 := by
  cases j with
  | null => exact ⟨110, _, by rw [renderJson], by decide, by decide, by decide⟩
  | bool b =>
    cases b with
    | true => exact ⟨116, _, by rw [renderJson], by decide, by decide, by decide⟩
    | false => exact ⟨102, _, by rw [renderJson], by decide, by decide, by decide⟩
  | int n =>
    rw [renderJson]
    unfold renderInt
    by_cases h : n < 0
    · exact ⟨45, _, by rw [if_pos h], by decide, by decide, by decide⟩
    · obtain ⟨b, bs, hb, h1, h2⟩ := natToBytes_head n.toNat
      refine ⟨b, bs, by rw [if_neg h, hb], ?_, ?_, ?_⟩
      · simp [isWsByte]; omega
      · omega
      · omega
  | str s => exact ⟨34, _, by rw [renderJson], by decide, by decide, by decide⟩
  | arr xs => exact ⟨91, _, by rw [renderJson], by decide, by decide, by decide⟩
  | obj ms => exact ⟨123, _, by rw [renderJson], by decide, by decide, by decide⟩

/-- Rendered values are nonempty. -/
theorem renderJson_length_pos (j : Json) : 1 ≤ (renderJson j).length := by
  obtain ⟨b, bs, hb, _, _, _⟩ := renderJson_head j
  rw [hb]
  simp

/-- Whitespace skipping is the identity in front of a rendered value. -/
theorem skipWsB_render (j : Json) (x : List Nat) :
    skipWsB (renderJson j ++ x) = renderJson j ++ x := by
  obtain ⟨b, bs, hb, hw, _, _⟩ := renderJson_head j
  rw [hb, List.cons_append, skipWsB_not_ws _ _ hw]

/-- A rendered number followed by a digit-free remainder splits into a digit
head and a tail on which the digit fold recovers the number. -/
theorem parseDigits_consume (m : Nat) (rest : List Nat) (h : noDigitHead rest = true) :
    ∃ c r2, natToBytes m ++ rest = c :: r2 ∧ isDigitByte c = true ∧
      parseDigitsAcc r2 (c - 48) = (m, rest) := by
  obtain ⟨b, bs, hb, h1, h2⟩ := natToBytes_head m
  have hd : isDigitByte b = true := by
    simp only [isDigitByte, Bool.and_eq_true, decide_eq_true_eq]
    omega
  refine ⟨b, bs ++ rest, by rw [hb]; rfl, hd, ?_⟩
  have h0 := parseDigitsAcc_roundtrip m rest h
  rw [hb] at h0
  simp only [List.cons_append, parseDigitsAcc, hd, if_true, Nat.zero_mul,
    Nat.zero_add] at h0
  exact h0

mutual

theorem parseValue_render : ∀ (j : Json) (fuel : Nat) (rest : List Nat),
    (renderJson j).length < fuel → noDigitHead rest = true →
    parseValue fuel (renderJson j ++ rest) = some (j, rest)
  | .null, fuel, rest, hf, hr => by
    cases fuel with
    | zero => exact absurd hf (Nat.not_lt_zero _)
    | succ f =>
      rw [renderJson, parseValue]
      simp only [List.cons_append]
      rw [skipWsB_not_ws 110 _ (by decide)]
      simp [takeLit]
  | .bool true, fuel, rest, hf, hr => by
    cases fuel with
    | zero => exact absurd hf (Nat.not_lt_zero _)
    | succ f =>
      rw [renderJson, parseValue]
      simp only [List.cons_append]
      rw [skipWsB_not_ws 116 _ (by decide)]
      simp [takeLit]
  | .bool false, fuel, rest, hf, hr => by
    cases fuel with
    | zero => exact absurd hf (Nat.not_lt_zero _)
    | succ f =>
      rw [renderJson, parseValue]
      simp only [List.cons_append]
      rw [skipWsB_not_ws 102 _ (by decide)]
      simp [takeLit]
  | .int n, fuel, rest, hf, hr => by
    cases fuel with
    | zero => exact absurd hf (Nat.not_lt_zero _)
    | succ f =>
      rw [renderJson]
      unfold renderInt
      by_cases hneg : n < 0
      · rw [if_pos hneg]
        obtain ⟨c, r2, heq, hdig, hacc⟩ := parseDigits_consume n.natAbs rest hr
        rw [parseValue]
        simp only [List.cons_append]
        rw [skipWsB_not_ws 45 _ (by decide)]
        simp only [heq]
        simp [hdig, hacc]
        rw [abs_of_nonpos (by omega), neg_neg]
      · rw [if_neg hneg]
        obtain ⟨c, r2, heq, hdig, hacc⟩ := parseDigits_consume n.toNat rest hr
        have hcb : 48 ≤ c ∧ c ≤ 57 := by
          simpa [isDigitByte] using hdig
        have hws : isWsByte c = false := by
          simp only [isWsByte]
          simp only [Bool.or_eq_false_iff, decide_eq_false_iff_not]
          omega
        rw [heq, parseValue, skipWsB_not_ws c _ hws]
        have h1 : ¬c = 110 := by omega
        have h2 : ¬c = 116 := by omega
        have h3 : ¬c = 102 := by omega
        have h4 : ¬c = 34 := by omega
        have h5 : ¬c = 91 := by omega
        have h6 : ¬c = 123 := by omega
        have h7 : ¬c = 45 := by omega
        simp [h1, h2, h3, h4, h5, h6, h7, hdig, hacc]
        omega
  | .str s, fuel, rest, hf, hr => by
    cases fuel with
    | zero => exact absurd hf (Nat.not_lt_zero _)
    | succ f =>
      rw [renderJson, parseValue]
      simp only [List.cons_append, List.append_assoc, List.singleton_append]
      rw [skipWsB_not_ws 34 _ (by decide)]
      simp [parseStringBody_escape]
  | .arr [], fuel, rest, hf, hr => by
    cases fuel with
    | zero => exact absurd hf (Nat.not_lt_zero _)
    | succ f =>
      rw [renderJson, renderElems, parseValue]
      simp only [List.nil_append, List.cons_append, List.singleton_append]
      rw [skipWsB_not_ws 91 _ (by decide)]
      simp [skipWsB_not_ws 93 rest (by decide)]
  | .arr (x :: xs), fuel, rest, hf, hr => by
    cases fuel with
    | zero => exact absurd hf (Nat.not_lt_zero _)
    | succ f =>
      rw [renderJson] at hf
      simp only [List.length_cons, List.length_append, List.length_singleton] at hf
      have hE := parseElems_render x xs f rest (by omega)
      obtain ⟨c, cs, hc, hcw, hc93, _⟩ := renderJson_head x
      have hsh : renderJson (.arr (x :: xs)) ++ rest
          = 91 :: (renderElems (x :: xs) ++ (93 :: rest)) := by
        rw [renderJson]
        simp
      have hrr : ∃ t, renderElems (x :: xs) ++ (93 :: rest) = c :: t := by
        cases xs with
        | nil =>
          exact ⟨cs ++ (93 :: rest), by rw [renderElems, hc]; rfl⟩
        | cons y ys =>
          exact ⟨cs ++ ((44 :: renderElems (y :: ys)) ++ (93 :: rest)), by
            rw [renderElems, hc]; simp⟩
      obtain ⟨t, ht⟩ := hrr
      have hE2 : parseElems f (c :: t) = some (x :: xs, rest) := by
        rw [← ht]
        exact hE
      have hskip2 : skipWsB (c :: t) = c :: t := skipWsB_not_ws _ _ hcw
      rw [hsh, parseValue]
      rw [skipWsB_not_ws 91 _ (by decide)]
      simp [ht, hskip2, hc93, hE2]
  | .obj [], fuel, rest, hf, hr => by
    cases fuel with
    | zero => exact absurd hf (Nat.not_lt_zero _)
    | succ f =>
      rw [renderJson, renderMembers, parseValue]
      simp only [List.nil_append, List.cons_append, List.singleton_append]
      rw [skipWsB_not_ws 123 _ (by decide)]
      simp [skipWsB_not_ws 125 rest (by decide)]
  | .obj ((k, v) :: ms), fuel, rest, hf, hr => by
    cases fuel with
    | zero => exact absurd hf (Nat.not_lt_zero _)
    | succ f =>
      rw [renderJson] at hf
      simp only [List.length_cons, List.length_append, List.length_singleton] at hf
      have hM := parseMembers_render k v ms f rest (by omega)
      have hsh : renderJson (.obj ((k, v) :: ms)) ++ rest
          = 123 :: (renderMembers ((k, v) :: ms) ++ (125 :: rest)) := by
        rw [renderJson]
        simp
      have hrr : ∃ t, renderMembers ((k, v) :: ms) ++ (125 :: rest) = 34 :: t := by
        cases ms with
        | nil =>
          exact ⟨(escapeBytes k ++ (34 :: (58 :: renderJson v))) ++ (125 :: rest), by
            rw [renderMembers]; rfl⟩
        | cons m ms2 =>
          exact ⟨(escapeBytes k
              ++ (34 :: (58 :: (renderJson v ++ (44 :: renderMembers (m :: ms2))))))
              ++ (125 :: rest), by
            rw [renderMembers]; rfl⟩
      obtain ⟨t, ht⟩ := hrr
      have hM2 : parseMembers f (34 :: t) = some ((k, v) :: ms, rest) := by
        rw [← ht]
        exact hM
      have hskip2 : skipWsB (34 :: t) = 34 :: t := skipWsB_not_ws _ _ (by decide)
      rw [hsh, parseValue]
      rw [skipWsB_not_ws 123 _ (by decide)]
      simp [ht, hskip2, hM2]
termination_by j _ _ => sizeOf j
decreasing_by
all_goals (simp_wf; try omega)

theorem parseElems_render : ∀ (x : Json) (xs : List Json) (fuel : Nat) (rest : List Nat),
    (renderElems (x :: xs)).length + 1 < fuel →
    parseElems fuel (renderElems (x :: xs) ++ (93 :: rest)) = some (x :: xs, rest)
  | x, [], fuel, rest, hf => by
    cases fuel with
    | zero => omega
    | succ f =>
      rw [renderElems] at hf ⊢
      have hlen : (renderJson x).length < f := by omega
      have hv := parseValue_render x f (93 :: rest) hlen
        (by simp [noDigitHead, isDigitByte])
      rw [parseElems, hv]
      simp [skipWsB_not_ws 93 rest (by decide)]
  | x, y :: ys, fuel, rest, hf => by
    cases fuel with
    | zero => omega
    | succ f =>
      rw [renderElems] at hf ⊢
      simp only [List.length_append, List.length_cons] at hf
      have hx1 := renderJson_length_pos x
      have hlx : (renderJson x).length < f := by omega
      have hlr : (renderElems (y :: ys)).length + 1 < f := by omega
      have hv := parseValue_render x f (44 :: (renderElems (y :: ys) ++ (93 :: rest))) hlx
        (by simp [noDigitHead, isDigitByte])
      have hrec := parseElems_render y ys f rest hlr
      have hshape : (renderJson x ++ (44 :: renderElems (y :: ys))) ++ (93 :: rest)
          = renderJson x ++ (44 :: (renderElems (y :: ys) ++ (93 :: rest))) := by
        simp
      have hsk44 : skipWsB (44 :: (renderElems (y :: ys) ++ (93 :: rest)))
          = 44 :: (renderElems (y :: ys) ++ (93 :: rest)) := skipWsB_not_ws _ _ (by decide)
      rw [parseElems, hshape, hv]
      simp [hsk44, hrec]
termination_by x xs _ _ => sizeOf x + sizeOf xs
decreasing_by
all_goals (simp_wf; try omega)

theorem parseMembers_render : ∀ (k : List Nat) (v : Json) (ms : List (List Nat × Json))
    (fuel : Nat) (rest : List Nat),
    (renderMembers ((k, v) :: ms)).length + 1 < fuel →
    parseMembers fuel (renderMembers ((k, v) :: ms) ++ (125 :: rest))
      = some ((k, v) :: ms, rest)
  | k, v, [], fuel, rest, hf => by
    cases fuel with
    | zero => omega
    | succ f =>
      rw [renderMembers] at hf ⊢
      simp only [List.length_cons, List.length_append] at hf
      have hlv : (renderJson v).length < f := by omega
      have hv := parseValue_render v f (125 :: rest) hlv
        (by simp [noDigitHead, isDigitByte])
      have hshape : (34 :: (escapeBytes k ++ (34 :: (58 :: renderJson v)))) ++ (125 :: rest)
          = 34 :: (escapeBytes k ++ (34 :: (58 :: (renderJson v ++ (125 :: rest))))) := by
        simp
      have hsk58 : skipWsB (58 :: (renderJson v ++ (125 :: rest)))
          = 58 :: (renderJson v ++ (125 :: rest)) := skipWsB_not_ws _ _ (by decide)
      have hsk125 : skipWsB (125 :: rest) = 125 :: rest := skipWsB_not_ws _ _ (by decide)
      rw [parseMembers, hshape, skipWsB_not_ws 34 _ (by decide)]
      simp [parseStringBody_escape, hsk58, hsk125, hv]
  | k, v, (k2, v2) :: ms2, fuel, rest, hf => by
    cases fuel with
    | zero => omega
    | succ f =>
      rw [renderMembers] at hf ⊢
      simp only [List.length_cons, List.length_append] at hf
      have hv1 := renderJson_length_pos v
      have hlv : (renderJson v).length < f := by omega
      have hlm : (renderMembers ((k2, v2) :: ms2)).length + 1 < f := by omega
      have hv := parseValue_render v f
        (44 :: (renderMembers ((k2, v2) :: ms2) ++ (125 :: rest))) hlv
        (by simp [noDigitHead, isDigitByte])
      have hrec := parseMembers_render k2 v2 ms2 f rest hlm
      have hshape : (34 :: (escapeBytes k
            ++ (34 :: (58 :: (renderJson v ++ (44 :: renderMembers ((k2, v2) :: ms2)))))))
            ++ (125 :: rest)
          = 34 :: (escapeBytes k ++ (34 :: (58 :: (renderJson v
            ++ (44 :: (renderMembers ((k2, v2) :: ms2) ++ (125 :: rest))))))) := by
        simp
      have hsk58 : skipWsB (58 :: (renderJson v
            ++ (44 :: (renderMembers ((k2, v2) :: ms2) ++ (125 :: rest)))))
          = 58 :: (renderJson v
            ++ (44 :: (renderMembers ((k2, v2) :: ms2) ++ (125 :: rest)))) :=
        skipWsB_not_ws _ _ (by decide)
      have hsk44 : skipWsB (44 :: (renderMembers ((k2, v2) :: ms2) ++ (125 :: rest)))
          = 44 :: (renderMembers ((k2, v2) :: ms2) ++ (125 :: rest)) :=
        skipWsB_not_ws _ _ (by decide)
      rw [parseMembers, hshape, skipWsB_not_ws 34 _ (by decide)]
      simp [parseStringBody_escape, hsk58, hsk44, hv, hrec]
termination_by _ v ms _ _ => sizeOf v + sizeOf ms
decreasing_by
all_goals (simp_wf; try omega)

end

/-- Parsing a rendered value with the framing check recovers the value. -/
theorem parseJson_render (j : Json) : parseJson (renderJson j) = some j := by
  have h := parseValue_render j ((renderJson j).length + 1) [] (by omega) rfl
  rw [List.append_nil] at h
  unfold parseJson
  rw [h]
  simp [skipWsB]

/-- C4: for every message type whose serde instances are mutually coherent at
the value being sent (deserializing the serialized data-model value gives the
value back — the guarantee of derived serde instances), the JSON adapter
round-trips: `JsonSupport::decode (JsonSupport::encode m) = Some m`, and
`JsonMessage::from_bytes (JsonMessage::to_bytes m)` recovers the wrapped
message, for every data-type argument. -/
theorem json_roundtrip (α : Type) (si : SerdeImpl α) (m : α)
    (hser : si.deserialize (si.serialize m) = some m) :
    JsonSupport.decode α si (JsonSupport.encode α si m) = some m ∧
    (∀ dt, JsonMessage.from_bytes α si (JsonMessage.to_bytes α si ⟨m⟩) dt
      = some ⟨m⟩) := by
  have h := parseJson_render (si.serialize m)
  constructor
  · simp [JsonSupport.decode, JsonSupport.encode, h, hser]
  · intro dt
    simp [JsonMessage.from_bytes, JsonMessage.to_bytes, JsonSupport.decode,
      JsonSupport.encode, h, hser]

/-- Witness for C4: the spec's scenario message, a struct with a string field
and a count field, round-trips through the JSON adapter. -/
theorem json_roundtrip_witness :
    JsonSupport.decode DemoMsg serdeDemoMsg
        (JsonSupport.encode DemoMsg serdeDemoMsg ⟨strBytes "hi", 1⟩)
      = some ⟨strBytes "hi", 1⟩ ∧
    JsonMessage.from_bytes DemoMsg serdeDemoMsg
        (JsonMessage.to_bytes DemoMsg serdeDemoMsg ⟨⟨strBytes "hi", 1⟩⟩)
        ⟨"json", "DemoMsg", []⟩
      = some ⟨⟨strBytes "hi", 1⟩⟩ := by
  have h := json_roundtrip DemoMsg serdeDemoMsg ⟨strBytes "hi", 1⟩ (by decide)
  exact ⟨h.1, h.2 ⟨"json", "DemoMsg", []⟩⟩

end Rustecal
